import Mathlib

set_option maxHeartbeats 1000000
set_option maxRecDepth 100000

/- Verification development for the AOR retrieval-augmented answering
pipeline: text chunking, chunk identifiers, batch embedding, cosine
similarity, vector-store insertion and search post-processing, and the
LLM retry loop.  Numeric values that are Python floats are modelled as
rationals (or reals where a square root is required); Python strings are
modelled as lists of characters where slicing matters. -/

namespace AOR

/-- Python whitespace test used by str.strip (ASCII whitespace). -/
def isPySpace (c : Char) : Bool :=
  c == ' ' || c == '\t' || c == '\n' || c == '\r' || c == '\x0b' || c == '\x0c'

/-- Python str.strip: drop whitespace from both ends. -/
def pyStrip (l : List Char) : List Char :=
  ((l.dropWhile isPySpace).reverse.dropWhile isPySpace).reverse

/-- Normalisation of a Python slice bound for a string of length n:
a negative index counts from the end, then the result is clamped to
the range from 0 to n. -/
def pyIdx (n : Nat) (i : Int) : Nat :=
  if i < 0 then (max 0 (i + n)).toNat else min i.toNat n

/-- Python slice l[i:j] with full negative-index and clamping semantics. -/
def pySlice (l : List Char) (i j : Int) : List Char :=
  let a := pyIdx l.length i
  let b := pyIdx l.length j
  (l.drop a).take (b - a)

/-- Python str.rfind of a single character with start and end bounds:
the greatest position p with start ≤ p < end holding the character,
else -1; the bounds are normalised like slice bounds. -/
def pyRfindChar (l : List Char) (c : Char) (i j : Int) : Int :=
  let a := pyIdx l.length i
  let b := pyIdx l.length j
  let seg := (l.drop a).take (b - a)
  match seg.reverse.findIdx? (· == c) with
  | some k => ((a + (seg.length - 1 - k) : Nat) : Int)
  | none => -1

/-- Python str.find of a single character over the whole string. -/
def pyFindChar (l : List Char) (c : Char) : Int :=
  match l.findIdx? (· == c) with
  | some k => (k : Int)
  | none => -1

/-- Python str.rfind of a single character over the whole string. -/
def pyRfindCharAll (l : List Char) (c : Char) : Int :=
  match l.reverse.findIdx? (· == c) with
  | some k => ((l.length - 1 - k : Nat) : Int)
  | none => -1

/- ------------------------------------------------------------------ -/
/- Chunker: FileProcessorService._create_chunks                        -/
/- ------------------------------------------------------------------ -/

/-- Metadata recorded on a chunk by the chunker: the chunk_type together
with the character offsets and text length for split chunks.  The
file_size_mb entry is omitted since it reads the file system. -/
inductive ChunkMeta where
  | single
  | split (start_char end_char : Int) (text_length : Nat)
deriving DecidableEq

/-- A chunk as built by FileProcessorService._create_chunks. -/
structure ChunkRec where
  id : String
  content : List Char
  source_file : String
  chunk_index : Nat
  metadata : ChunkMeta
deriving DecidableEq

/-- State of the while loop of _create_chunks. -/
structure ChunkLoopState where
  start : Int
  chunk_index : Nat
  chunks : List ChunkRec
deriving DecidableEq

/-- Window-end computation of one _create_chunks iteration (source
lines 234-243): the window end is start plus chunkSize; when it falls
before the end of the text it moves back to the last space found in the
overlap window, provided that space lies strictly after start. -/
def chunkWindowEnd (chunkSize overlap : Int) (text : List Char)
    (start : Int) : Int :=
  let n : Int := text.length
  let end0 := start + chunkSize
  if end0 < n then
    let overlapStart := max start (end0 - overlap)
    let lastSpace := pyRfindChar text ' ' overlapStart end0
    if lastSpace > start then lastSpace else end0
  else end0

/-- One iteration of the while loop of _create_chunks (source lines
232-267): compute the window end, strip the window text, emit a chunk
when the stripped text is nonempty, and advance start to end minus
overlap.  The idOf argument abstracts generate_chunk_id (an md5 hash
plus a random suffix). -/
def chunkStep (chunkSize overlap : Int) (source_file : String)
    (idOf : List Char → Nat → String) (text : List Char)
    (st : ChunkLoopState) : ChunkLoopState :=
  let endPos := chunkWindowEnd chunkSize overlap text st.start
  let chunkText := pyStrip (pySlice text st.start endPos)
  if chunkText ≠ [] then
    { start := endPos - overlap
      chunk_index := st.chunk_index + 1
      chunks := st.chunks ++
        [{ id := idOf chunkText st.chunk_index
           content := chunkText
           source_file := source_file
           chunk_index := st.chunk_index
           metadata := .split st.start endPos chunkText.length }] }
  else
    { start := endPos - overlap
      chunk_index := st.chunk_index
      chunks := st.chunks }

/-- The while loop of _create_chunks run with fuel; none means the fuel
ran out before the loop terminated.  The final break of the loop body
(start ≥ len) tests exactly the negation of the loop condition and is
represented by the loop condition itself. -/
def chunkLoop (chunkSize overlap : Int) (source_file : String)
    (idOf : List Char → Nat → String) (text : List Char) :
    Nat → ChunkLoopState → Option (List ChunkRec)
  | 0, _ => none
  | fuel + 1, st =>
    if st.start < (text.length : Int) then
      chunkLoop chunkSize overlap source_file idOf text fuel
        (chunkStep chunkSize overlap source_file idOf text st)
    else
      some st.chunks

/-- FileProcessorService._create_chunks (lines 199-274): texts that are
empty or shorter than chunkSize after stripping give one single chunk
(or none when blank); otherwise the sliding-window loop runs from
start 0. -/
def create_chunks (chunkSize overlap : Int) (source_file : String)
    (idOf : List Char → Nat → String) (text : List Char) (fuel : Nat) :
    Option (List ChunkRec) :=
  if text = [] ∨ ((pyStrip text).length : Int) < chunkSize then
    if pyStrip text ≠ [] then
      some [{ id := idOf text 0
              content := pyStrip text
              source_file := source_file
              chunk_index := 0
              metadata := .single }]
    else some []
  else
    chunkLoop chunkSize overlap source_file idOf text fuel
      { start := 0, chunk_index := 0, chunks := [] }

/-- The failing input for the chunker: 17 characters with a space at
position 4, chunked with chunkSize 10 and overlap 6 (valid parameters:
chunkSize positive, overlap nonnegative and smaller than chunkSize). -/
def demoTextC1 : List Char := ("abcd efghijklmnop").toList

/-- In the stuck state the loop body of _create_chunks is the identity:
the window end moves back to the space at position 4, the sliced text is
empty (Python slice with negative start 15 beyond end 4), no chunk is
emitted, and start is recomputed as 4 - 6 = -2. -/
lemma chunkStep_stuck (source_file : String)
    (idOf : List Char → Nat → String) (idx : Nat) (cs : List ChunkRec) :
    chunkStep 10 6 source_file idOf demoTextC1
      { start := -2, chunk_index := idx, chunks := cs } =
      { start := -2, chunk_index := idx, chunks := cs } := by
  have hEnd : chunkWindowEnd 10 6 demoTextC1 (-2) = 4 := by decide
  have hText : pyStrip (pySlice demoTextC1 (-2) 4) = [] := by decide
  simp only [chunkStep, hEnd, hText, ne_eq, not_true_eq_false, if_false,
    ite_false]
  norm_num

/-- From the stuck state the while loop of _create_chunks never exits,
whatever fuel it is given. -/
lemma chunkLoop_stuck (source_file : String)
    (idOf : List Char → Nat → String) (idx : Nat) (cs : List ChunkRec) :
    ∀ fuel : Nat, chunkLoop 10 6 source_file idOf demoTextC1 fuel
      { start := -2, chunk_index := idx, chunks := cs } = none := by
  intro fuel
  induction fuel with
  | zero => rfl
  | succ n ih =>
    rw [chunkLoop, if_pos (by norm_num [demoTextC1]), chunkStep_stuck]
    exact ih

/-- The first loop iteration from the initial state emits the chunk
"abcd" and moves start to -2, the stuck state. -/
lemma chunkStep_init (source_file : String)
    (idOf : List Char → Nat → String) :
    chunkStep 10 6 source_file idOf demoTextC1
      { start := 0, chunk_index := 0, chunks := [] } =
      { start := -2, chunk_index := 1,
        chunks := [{ id := idOf (("abcd").toList) 0
                     content := ("abcd").toList
                     source_file := source_file
                     chunk_index := 0
                     metadata := .split 0 4 4 }] } := by
  have hEnd : chunkWindowEnd 10 6 demoTextC1 0 = 4 := by decide
  have hText : pyStrip (pySlice demoTextC1 0 4) = ("abcd").toList := by
    decide
  simp only [chunkStep, hEnd, hText]
  norm_num
  decide

/-- C1: the claim fails on the code.  The claim asserts that for every
chunkSize > 0 and 0 ≤ overlap < chunkSize the split loop terminates and
forces progress when the computed next start does not exceed the
previous start.  The code has no such guard (its only guard breaks when
start reaches the end of the text), and with chunkSize 10, overlap 6 and
the 17-character text "abcd efghijklmnop" the loop reaches start = -2
and stays there forever: for every fuel bound the loop fails to
terminate, for every id generator. -/
theorem C1_create_chunks_nonterminating (source_file : String)
    (idOf : List Char → Nat → String) (fuel : Nat) :
    create_chunks 10 6 source_file idOf demoTextC1 fuel = none := by
  have hbranch : ¬(demoTextC1 = [] ∨
      ((pyStrip demoTextC1).length : Int) < 10) := by decide
  rw [create_chunks, if_neg hbranch]
  cases fuel with
  | zero => rfl
  | succ n =>
    rw [chunkLoop, if_pos (by norm_num [demoTextC1]), chunkStep_init]
    exact chunkLoop_stuck source_file idOf 1 _ n

/- ------------------------------------------------------------------ -/
/- Chunk identifiers: utils/file_utils.generate_chunk_id               -/
/- ------------------------------------------------------------------ -/

/-- generate_chunk_id (utils/file_utils.py lines 14-29): the md5 hex
digest (the md5Hex argument abstracts the hash function) of the first
100 characters of the content joined by underscores with the source
file and the chunk index, placed between the fixed stem and the random
suffix (the uuidHex8 argument abstracts the first 8 hex digits of a
fresh uuid4). -/
def generate_chunk_id (md5Hex : String → String) (uuidHex8 : String)
    (content source_file : String) (chunk_index : Int) : String :=
  "chunk_" ++
    md5Hex (content.take 100 ++ "_" ++ source_file ++ "_" ++
      toString chunk_index) ++ "_" ++ uuidHex8

/-- C10: the deterministic component of a chunk identifier depends only
on the first 100 characters of the content together with the source
file and chunk index: two chunks agreeing on those produce identifiers
sharing one stem and differing only in the random suffix. -/
theorem C10_chunk_id_deterministic_stem (md5Hex : String → String)
    (r1 r2 c1 c2 source_file : String) (chunk_index : Int)
    (h : c1.take 100 = c2.take 100) :
    ∃ stem : String,
      generate_chunk_id md5Hex r1 c1 source_file chunk_index =
        stem ++ r1 ∧
      generate_chunk_id md5Hex r2 c2 source_file chunk_index =
        stem ++ r2 := by
  refine ⟨"chunk_" ++
    md5Hex (c1.take 100 ++ "_" ++ source_file ++ "_" ++
      toString chunk_index) ++ "_", rfl, ?_⟩
  rw [generate_chunk_id, h]

/-- Demo content: 101 copies of the letter a. -/
def demoContentA : String := ⟨List.replicate 101 'a'⟩

/-- Demo content: 100 copies of the letter a followed by b; it differs
from demoContentA but agrees with it on the first 100 characters. -/
def demoContentB : String := ⟨List.replicate 100 'a' ++ ['b']⟩

/-- Witness for C10 at concrete contents that differ beyond their first
100 characters. -/
theorem C10_chunk_id_deterministic_stem_witness :
    ∃ stem : String,
      generate_chunk_id id ("00000000") demoContentA ("kb.xlsx") 0 =
        stem ++ "00000000" ∧
      generate_chunk_id id ("ffffffff") demoContentB ("kb.xlsx") 0 =
        stem ++ "ffffffff" :=
  C10_chunk_id_deterministic_stem id ("00000000") ("ffffffff")
    demoContentA demoContentB ("kb.xlsx") 0 (by decide)

/- ------------------------------------------------------------------ -/
/- Cosine similarity: EmbeddingService.calculate_similarity            -/
/- ------------------------------------------------------------------ -/

/-- Dot product of two float vectors (np.dot on 1-D arrays), in the
real-arithmetic model of Python floats. -/
def dotList (v w : List ℝ) : ℝ :=
  (List.zipWith (fun a b => a * b) v w).sum

/-- Euclidean norm of a float vector (np.linalg.norm). -/
noncomputable def normList (v : List ℝ) : ℝ := Real.sqrt (dotList v v)

/-- EmbeddingService.calculate_similarity (lines 113-147): 0.0 when
either input is falsy (empty); 0.0 when the lengths differ, since then
np.dot raises and the handler returns 0.0; 0.0 when either norm is
zero; otherwise the cosine ratio clamped into the unit interval. -/
noncomputable def calculate_similarity (v w : List ℝ) : ℝ :=
  if v = [] ∨ w = [] then 0
  else if v.length ≠ w.length then 0
  else if normList v = 0 ∨ normList w = 0 then 0
  else max 0 (min 1 (dotList v w / (normList v * normList w)))

lemma dotList_self_nonneg (v : List ℝ) : 0 ≤ dotList v v := by
  induction v with
  | nil => simp [dotList]
  | cons a v ih =>
    simp only [dotList, List.zipWith_cons_cons, List.sum_cons] at ih ⊢
    exact add_nonneg (mul_self_nonneg a) ih

lemma dotList_self_pos (v : List ℝ) (h : ∃ x ∈ v, x ≠ 0) :
    0 < dotList v v := by
  induction v with
  | nil => simp at h
  | cons a v ih =>
    simp only [dotList, List.zipWith_cons_cons, List.sum_cons]
    rcases h with ⟨x, hx, hxne⟩
    rcases List.mem_cons.mp hx with hxa | hxv
    · exact add_pos_of_pos_of_nonneg
        (mul_self_pos.mpr (by rwa [hxa] at hxne))
        (dotList_self_nonneg v)
    · exact add_pos_of_nonneg_of_pos (mul_self_nonneg a)
        (ih ⟨x, hxv, hxne⟩)

lemma dotList_comm (v w : List ℝ) : dotList v w = dotList w v := by
  induction v generalizing w with
  | nil => cases w <;> simp [dotList]
  | cons a v ih =>
    cases w with
    | nil => simp [dotList]
    | cons b w =>
      simp only [dotList, List.zipWith_cons_cons, List.sum_cons] at ih ⊢
      rw [mul_comm, ih]

/-- C5: the cosine-similarity function returns 1 on any nonzero vector
paired with itself, is symmetric, always lands in the unit interval,
and returns 0 whenever either input is empty or has zero norm. -/
theorem C5_calculate_similarity_props :
    (∀ v : List ℝ, (∃ x ∈ v, x ≠ 0) → calculate_similarity v v = 1) ∧
    (∀ v w : List ℝ,
      calculate_similarity v w = calculate_similarity w v) ∧
    (∀ v w : List ℝ,
      0 ≤ calculate_similarity v w ∧ calculate_similarity v w ≤ 1) ∧
    (∀ v w : List ℝ, v = [] ∨ w = [] ∨ normList v = 0 ∨ normList w = 0 →
      calculate_similarity v w = 0) := by
  have hne : ∀ v : List ℝ, (∃ x ∈ v, x ≠ 0) → v ≠ [] := by
    rintro v ⟨x, hx, -⟩ rfl; simp at hx
  refine ⟨?_, ?_, ?_, ?_⟩
  · intro v hv
    have hd : 0 < dotList v v := dotList_self_pos v hv
    have hnorm : normList v ≠ 0 := by
      have h1 : 0 < Real.sqrt (dotList v v) := Real.sqrt_pos.mpr hd
      simpa [normList] using h1.ne'
    simp only [calculate_similarity, normList]
    rw [if_neg (by rw [or_self]; exact hne v hv),
      if_neg (by simp),
      if_neg (by rw [or_self]; simpa [normList] using hnorm),
      Real.mul_self_sqrt hd.le, div_self hd.ne']
    norm_num
  · intro v w
    simp only [calculate_similarity]
    by_cases h1 : v = [] ∨ w = []
    · rw [if_pos h1, if_pos h1.symm]
    · have h1s : ¬(w = [] ∨ v = []) := fun hc => h1 hc.symm
      rw [if_neg h1, if_neg h1s]
      by_cases h2 : v.length ≠ w.length
      · have h2s : w.length ≠ v.length := fun hc => h2 hc.symm
        rw [if_pos h2, if_pos h2s]
      · have h2s : ¬(w.length ≠ v.length) := fun hc => h2 fun hv => hc hv.symm
        rw [if_neg h2, if_neg h2s]
        by_cases h3 : normList v = 0 ∨ normList w = 0
        · rw [if_pos h3, if_pos h3.symm]
        · have h3s : ¬(normList w = 0 ∨ normList v = 0) :=
            fun hc => h3 hc.symm
          rw [if_neg h3, if_neg h3s, dotList_comm, mul_comm]
  · intro v w
    rw [calculate_similarity]
    split_ifs with h1 h2 h3
    · norm_num
    · norm_num
    · norm_num
    · constructor
      · exact le_max_left 0 _
      · exact max_le (by norm_num) (min_le_left 1 _)
  · intro v w h
    rw [calculate_similarity]
    by_cases h1 : v = [] ∨ w = []
    · rw [if_pos h1]
    · rw [if_neg h1]
      by_cases h2 : v.length ≠ w.length
      · rw [if_pos h2]
      · rw [if_neg h2]
        have h3 : normList v = 0 ∨ normList w = 0 := by
          rcases h with h | h | h | h
          · exact absurd (Or.inl h) h1
          · exact absurd (Or.inr h) h1
          · exact Or.inl h
          · exact Or.inr h
        rw [if_pos h3]

/-- Witness for C5 at concrete vectors. -/
theorem C5_calculate_similarity_props_witness :
    calculate_similarity [1, 0] [1, 0] = 1 ∧
    calculate_similarity [1, 2] [3] = calculate_similarity [3] [1, 2] ∧
    (0 ≤ calculate_similarity [1] [2] ∧
      calculate_similarity [1] [2] ≤ 1) ∧
    calculate_similarity [] [1] = 0 :=
  ⟨C5_calculate_similarity_props.1 [1, 0]
      ⟨1, by simp, by norm_num⟩,
    C5_calculate_similarity_props.2.1 [1, 2] [3],
    C5_calculate_similarity_props.2.2.1 [1] [2],
    C5_calculate_similarity_props.2.2.2 [] [1] (Or.inl rfl)⟩

/- ------------------------------------------------------------------ -/
/- Vector store: VectorStoreService.insert_chunks                      -/
/- ------------------------------------------------------------------ -/

/-- A chunk as handled by the vector store (models/data_models.Chunk);
float components are modelled as rationals and the metadata dictionary
as a key-value list. -/
structure PyChunk where
  id : String
  content : String
  source_file : String
  chunk_index : Int
  embedding : Option (List ℚ)
  metadata : List (String × String)
deriving DecidableEq

/-- One row of the data handed to collection.insert; the str
serialization of the metadata dictionary is kept as the dictionary
itself. -/
structure InsertRow where
  id : String
  content : String
  source_file : String
  chunk_index : Int
  embedding : List ℚ
  metadata : List (String × String)
deriving DecidableEq

/-- The per-chunk body of the preparation loop of insert_chunks (lines
131-141): a chunk whose embedding is falsy in Python (None or the empty
list) is skipped, any other chunk contributes one row. -/
def rowOfChunk (c : PyChunk) : Option InsertRow :=
  match c.embedding with
  | none => none
  | some e =>
    if e.isEmpty then none
    else some ⟨c.id, c.content, c.source_file, c.chunk_index, e,
      c.metadata⟩

/-- VectorStoreService.insert_chunks (lines 106-159).  The six parallel
field lists built by the loop are represented as one row list; the
boolean is the Python return value and the rows are the data handed to
collection.insert followed by flush (both external backend calls).  An
empty batch and a batch with no valid chunk both return True before any
data is inserted. -/
def insert_chunks (chunks : List PyChunk) : Bool × List InsertRow :=
  if chunks = [] then (true, [])
  else
    let rows := chunks.filterMap rowOfChunk
    if rows = [] then (true, [])
    else (true, rows)

/-- Five chunks of which two have a null embedding, the scenario named
by C2. -/
def demoChunksC2 : List PyChunk :=
  [ ⟨"c1", "t1", "kb.xlsx", 0, some [1, 0], []⟩,
    ⟨"c2", "t2", "kb.xlsx", 1, none, []⟩,
    ⟨"c3", "t3", "kb.xlsx", 2, some [0, 1], []⟩,
    ⟨"c4", "t4", "kb.xlsx", 3, none, []⟩,
    ⟨"c5", "t5", "kb.xlsx", 4, some [1, 1], []⟩ ]

/-- Python booleans are integers: True counts as 1.  The caller
process_knowledge_base adds the return value of insert_chunks to its
vector counter (file_processor_service lines 94-95), so this is the
number that reaches the indexing totals. -/
def pyBoolToInt (b : Bool) : Int := if b then 1 else 0

/-- C2: the claim fails on the code.  The claim asserts that inserting
5 chunks of which 2 have null embeddings returns the count 3; the code
does skip the 2 chunks without failing the batch and inserts 3 rows,
but it returns the boolean True, which the caller accumulates as the
integer 1, not 3. -/
theorem C2_insert_returns_bool_not_count :
    (insert_chunks demoChunksC2).2.length = 3 ∧
    (insert_chunks demoChunksC2).1 = true ∧
    pyBoolToInt (insert_chunks demoChunksC2).1 = 1 := by decide

/-- C9: insert_chunks reports success when there is nothing to insert:
an empty batch, or a batch in which every chunk has a null embedding,
inserts no row and returns True. -/
theorem C9_insert_nothing_success :
    insert_chunks [] = (true, []) ∧
    ∀ chunks : List PyChunk, (∀ c ∈ chunks, c.embedding = none) →
      insert_chunks chunks = (true, []) := by
  constructor
  · rfl
  · intro chunks h
    have hrows : chunks.filterMap rowOfChunk = [] := by
      rw [List.filterMap_eq_nil_iff]
      intro c hc
      rw [rowOfChunk, h c hc]
    rw [insert_chunks]
    by_cases hc : chunks = []
    · rw [if_pos hc]
    · rw [if_neg hc]
      simp only [hrows, ite_true]

/-- Witness for C9 on a concrete all-null batch. -/
theorem C9_insert_nothing_success_witness :
    insert_chunks [⟨"c1", "t1", "kb.xlsx", 0, none, []⟩,
      ⟨"c2", "t2", "kb.xlsx", 1, none, []⟩] = (true, []) :=
  C9_insert_nothing_success.2 _ (by decide)

/- ------------------------------------------------------------------ -/
/- Vector store: VectorStoreService.search_similar_chunks              -/
/- ------------------------------------------------------------------ -/

/-- One hit returned by the backend search: the requested output fields
plus the similarity score.  The stored embedding is not among the
output fields of the search call. -/
structure Hit where
  id : String
  content : String
  source_file : String
  chunk_index : Int
  metadata : List (String × String)
  score : ℚ
deriving DecidableEq

/-- models/data_models.VectorSearchResult. -/
structure VectorSearchResult where
  chunk : PyChunk
  similarity_score : ℚ
  rank : Int
deriving DecidableEq

/-- Chunk rebuilt from a search hit (lines 199-206): every field comes
from the hit entity except the embedding, which is set to the query
embedding. -/
def chunkOfHit (query_embedding : List ℚ) (h : Hit) : PyChunk :=
  ⟨h.id, h.content, h.source_file, h.chunk_index, some query_embedding,
    h.metadata⟩

/-- Per-hit step of the result loop (lines 196-215): keep the hit when
its score clears the threshold, with rank one more than the number of
results accumulated so far. -/
def processHit (query_embedding : List ℚ) (threshold : ℚ)
    (acc : List VectorSearchResult) (h : Hit) :
    List VectorSearchResult :=
  if threshold ≤ h.score then
    acc ++ [⟨chunkOfHit query_embedding h, h.score,
      (acc.length : Int) + 1⟩]
  else acc

/-- Post-processing of VectorStoreService.search_similar_chunks (lines
193-218): the double loop over the per-query hit lists returned by the
backend; the service sends exactly one query vector, so the outer list
has one element in every actual call. -/
def search_post (query_embedding : List ℚ) (threshold : ℚ)
    (results : List (List Hit)) : List VectorSearchResult :=
  results.foldl
    (fun acc hits => hits.foldl (processHit query_embedding threshold) acc)
    []

/-- Closed form of the result loop: results in order, ranked from k+1. -/
def rankFrom (query_embedding : List ℚ) (k : Nat) :
    List Hit → List VectorSearchResult
  | [] => []
  | h :: hs =>
    ⟨chunkOfHit query_embedding h, h.score, (k : Int) + 1⟩ ::
      rankFrom query_embedding (k + 1) hs

lemma rankFrom_length (q : List ℚ) (k : Nat) (l : List Hit) :
    (rankFrom q k l).length = l.length := by
  induction l generalizing k with
  | nil => rfl
  | cons h hs ih => simp [rankFrom, ih]

lemma rankFrom_append (q : List ℚ) (k : Nat) (l1 l2 : List Hit) :
    rankFrom q k (l1 ++ l2) =
      rankFrom q k l1 ++ rankFrom q (k + l1.length) l2 := by
  induction l1 generalizing k with
  | nil => simp [rankFrom]
  | cons h hs ih =>
    simp only [List.cons_append, rankFrom, List.append_eq, ih,
      List.length_cons]
    rw [show k + (hs.length + 1) = (k + 1) + hs.length by omega]

lemma foldl_processHit_eq (q : List ℚ) (t : ℚ) (hits : List Hit)
    (acc : List VectorSearchResult) :
    hits.foldl (processHit q t) acc =
      acc ++ rankFrom q acc.length
        (hits.filter (fun h => decide (t ≤ h.score))) := by
  induction hits generalizing acc with
  | nil => simp [rankFrom]
  | cons h hs ih =>
    simp only [List.foldl_cons, List.filter_cons]
    by_cases hc : t ≤ h.score
    · rw [processHit, if_pos hc, ih, if_pos (by simp [hc])]
      simp only [rankFrom, List.append_assoc, List.singleton_append,
        List.length_append, List.length_cons, List.length_nil]
    · rw [processHit, if_neg hc, ih, if_neg (by simp [hc])]

/-- Characterization of the search post-processing: the flattened hits
that clear the threshold, in backend order, ranked from 1. -/
lemma search_post_eq (q : List ℚ) (t : ℚ) (rls : List (List Hit)) :
    search_post q t rls =
      rankFrom q 0 (rls.flatten.filter (fun h => decide (t ≤ h.score))) := by
  rw [search_post]
  suffices hgen : ∀ (rls : List (List Hit)) (acc : List VectorSearchResult),
      rls.foldl (fun acc hits => hits.foldl (processHit q t) acc) acc =
        acc ++ rankFrom q acc.length
          (rls.flatten.filter (fun h => decide (t ≤ h.score))) by
    simpa using hgen rls []
  intro rls
  induction rls with
  | nil => intro acc; simp [rankFrom]
  | cons hits rest ih =>
    intro acc
    rw [List.foldl_cons, foldl_processHit_eq, ih, List.flatten_cons,
      List.filter_append, rankFrom_append, ← List.append_assoc]
    congr 1
    rw [List.length_append, rankFrom_length]

lemma mem_rankFrom (q : List ℚ) (k : Nat) (l : List Hit)
    (r : VectorSearchResult) (hr : r ∈ rankFrom q k l) :
    ∃ h ∈ l, r.chunk = chunkOfHit q h ∧ r.similarity_score = h.score := by
  induction l generalizing k with
  | nil => simp [rankFrom] at hr
  | cons h hs ih =>
    simp only [rankFrom, List.mem_cons] at hr
    rcases hr with rfl | hmem
    · exact ⟨h, List.mem_cons_self h hs, rfl, rfl⟩
    · obtain ⟨h2, hh2, hc, hs2⟩ := ih (k + 1) hmem
      exact ⟨h2, List.mem_cons_of_mem h hh2, hc, hs2⟩

lemma rankFrom_pairwise (q : List ℚ) (k : Nat) (l : List Hit)
    (hl : l.Pairwise (fun a b => b.score ≤ a.score)) :
    (rankFrom q k l).Pairwise
      (fun a b => b.similarity_score ≤ a.similarity_score) := by
  induction l generalizing k with
  | nil => simp [rankFrom]
  | cons h hs ih =>
    rw [List.pairwise_cons] at hl
    simp only [rankFrom, List.pairwise_cons]
    constructor
    · intro r hr
      obtain ⟨h2, hh2, -, hsc⟩ := mem_rankFrom q (k + 1) hs r hr
      rw [hsc]
      exact hl.1 h2 hh2
    · exact ih (k + 1) hl.2

lemma rankFrom_get_rank (q : List ℚ) (l : List Hit) (k i : Nat)
    (hi : i < (rankFrom q k l).length) :
    ((rankFrom q k l).get ⟨i, hi⟩).rank = ((k + i : Nat) : Int) + 1 := by
  induction l generalizing k i with
  | nil => simp [rankFrom] at hi
  | cons h hs ih =>
    cases i with
    | zero => simp [rankFrom]
    | succ j =>
      have hj : j < (rankFrom q (k + 1) hs).length := by
        simpa [rankFrom] using hi
      have := ih (k + 1) j hj
      simp only [rankFrom, List.get_cons_succ]
      rw [this]
      push_cast
      ring

/-- C8: every result of the search post-processing carries the query
embedding in its chunk, never the stored embedding of the matched chunk
(which is not even among the output fields of the backend call). -/
theorem C8_search_returns_query_embedding (q : List ℚ) (t : ℚ)
    (rls : List (List Hit)) (r : VectorSearchResult)
    (hr : r ∈ search_post q t rls) : r.chunk.embedding = some q := by
  rw [search_post_eq] at hr
  obtain ⟨h, -, hchunk, -⟩ := mem_rankFrom _ _ _ _ hr
  rw [hchunk]
  rfl

/-- The single query vector of the search scenario from the spec. -/
def demoQueryC4 : List ℚ := [1, 0, 0, 0]

/-- Backend hit scoring 1 against the query. -/
def demoHit1 : Hit := ⟨"h1", "content one", "kb.xlsx", 0, [], 1⟩

/-- Backend hit scoring 0 against the query. -/
def demoHit2 : Hit := ⟨"h2", "content two", "kb.xlsx", 1, [], 0⟩

/-- The single hit list the backend returns for the single query. -/
def demoHitsC4 : List Hit := [demoHit1, demoHit2]

/-- Backend result set of the scenario. -/
def demoResultsC4 : List (List Hit) := [demoHitsC4]

/-- The one result that clears threshold one half. -/
def demoResC4 : VectorSearchResult :=
  ⟨chunkOfHit demoQueryC4 demoHit1, 1, 1⟩

/-- Witness for C8 on the concrete scenario. -/
theorem C8_search_returns_query_embedding_witness :
    demoResC4.chunk.embedding = some demoQueryC4 :=
  C8_search_returns_query_embedding demoQueryC4 1 demoResultsC4
    demoResC4 (by decide)

/-- C4: the search post-processing returns only results whose score
clears the threshold; on a backend hit list sorted by non-increasing
score (the backend contract) the results are sorted by non-increasing
score; ranks are 1-based and contiguous; an empty result list is the
regular outcome when nothing clears the threshold; and raising the
threshold never increases the number of results. -/
theorem C4_search_post_props :
    (∀ (q : List ℚ) (t : ℚ) (rls : List (List Hit))
      (r : VectorSearchResult),
      r ∈ search_post q t rls → t ≤ r.similarity_score) ∧
    (∀ (q : List ℚ) (t : ℚ) (hits : List Hit),
      hits.Pairwise (fun a b => b.score ≤ a.score) →
      (search_post q t [hits]).Pairwise
        (fun a b => b.similarity_score ≤ a.similarity_score)) ∧
    (∀ (q : List ℚ) (t : ℚ) (rls : List (List Hit)) (i : Nat)
      (hi : i < (search_post q t rls).length),
      ((search_post q t rls).get ⟨i, hi⟩).rank = (i : Int) + 1) ∧
    (∀ (q : List ℚ) (t : ℚ) (hits : List Hit),
      (∀ h ∈ hits, h.score < t) → search_post q t [hits] = []) ∧
    (∀ (q : List ℚ) (t1 t2 : ℚ) (rls : List (List Hit)), t1 ≤ t2 →
      (search_post q t2 rls).length ≤ (search_post q t1 rls).length) := by
  refine ⟨?_, ?_, ?_, ?_, ?_⟩
  · intro q t rls r hr
    rw [search_post_eq] at hr
    obtain ⟨h, hh, -, hsc⟩ := mem_rankFrom _ _ _ _ hr
    rw [hsc]
    exact of_decide_eq_true (List.mem_filter.mp hh).2
  · intro q t hits hsorted
    rw [search_post_eq]
    refine rankFrom_pairwise q 0 _ ?_
    exact List.Pairwise.filter _ (by simpa using hsorted)
  · intro q t rls i hi
    have he := search_post_eq q t rls
    revert hi
    rw [he]
    intro hi
    simpa using rankFrom_get_rank q _ 0 i hi
  · intro q t hits hlow
    rw [search_post_eq]
    have hfil : (([hits] : List (List Hit)).flatten.filter
        (fun h => decide (t ≤ h.score))) = [] := by
      rw [List.filter_eq_nil_iff]
      intro h hh
      simp only [List.flatten_cons, List.flatten_nil,
        List.append_nil] at hh
      simpa using not_le.mpr (hlow h hh)
    rw [hfil]
    rfl
  · intro q t1 t2 rls h12
    rw [search_post_eq, search_post_eq, rankFrom_length, rankFrom_length]
    refine List.Sublist.length_le ?_
    refine List.monotone_filter_right _ ?_
    intro h hh
    simp only [decide_eq_true_eq] at hh ⊢
    exact le_trans h12 hh

/-- Witness for C4 on the concrete scenario: one hit scores 1, one hit
scores 0, threshold one half, so exactly one result comes back, with
rank 1 and score 1; threshold 2 empties the result; threshold
three quarters returns no more results than threshold one half. -/
theorem C4_search_post_props_witness :
    ((1 : ℚ) ≤ demoResC4.similarity_score) ∧
    (search_post demoQueryC4 1 demoResultsC4).Pairwise
      (fun a b => b.similarity_score ≤ a.similarity_score) ∧
    ((search_post demoQueryC4 1 demoResultsC4).get
      ⟨0, by decide⟩).rank = (0 : Int) + 1 ∧
    search_post demoQueryC4 2 demoResultsC4 = [] ∧
    (search_post demoQueryC4 1 demoResultsC4).length ≤
      (search_post demoQueryC4 0 demoResultsC4).length :=
  ⟨C4_search_post_props.1 demoQueryC4 1 demoResultsC4 demoResC4
      (by decide),
    C4_search_post_props.2.1 demoQueryC4 1 demoHitsC4 (by decide),
    C4_search_post_props.2.2.1 demoQueryC4 1 demoResultsC4 0
      (by decide),
    C4_search_post_props.2.2.2.1 demoQueryC4 2 demoHitsC4 (by decide),
    C4_search_post_props.2.2.2.2 demoQueryC4 0 1 demoResultsC4
      (by norm_num)⟩

/- ------------------------------------------------------------------ -/
/- Batch embedding: EmbeddingService.generate_embeddings_batch         -/
/- ------------------------------------------------------------------ -/

/-- Validity test of the batch filter (line 89): text and text.strip()
in Python truthiness, true when the text is nonempty and still nonempty
after stripping. -/
def textValid (t : List Char) : Bool :=
  !t.isEmpty && !(pyStrip t).isEmpty

/-- The filtered enumeration of line 89, pairing each retained position
with its stripped text; the position counter starts at k. -/
def validTexts : List (List Char) → Nat → List (Nat × List Char)
  | [], _ => []
  | t :: ts, k =>
    if textValid t then (k, pyStrip t) :: validTexts ts (k + 1)
    else validTexts ts (k + 1)

/-- The scatter loop of lines 102-104: write each embedding into the
result slot of its original index. -/
def scatter (res : List (Option (List ℚ)))
    (pairs : List (Nat × List ℚ)) : List (Option (List ℚ)) :=
  pairs.foldl (fun r p => r.set p.1 (some p.2)) res

/-- EmbeddingService.generate_embeddings_batch (lines 73-111): empty
input gives an empty output; no valid text gives an all-None list
without calling the model; otherwise the model is called once on the
stripped valid texts and the embeddings are scattered back to their
original positions.  The encode argument abstracts model.encode, with
none standing for a raised exception (handled by returning all None). -/
def generate_embeddings_batch
    (encode : List (List Char) → Option (List (List ℚ)))
    (texts : List (List Char)) : List (Option (List ℚ)) :=
  if texts = [] then []
  else
    let valid := validTexts texts 0
    if valid = [] then List.replicate texts.length none
    else
      match encode (valid.map Prod.snd) with
      | none => List.replicate texts.length none
      | some embs =>
        scatter (List.replicate texts.length none)
          ((valid.map Prod.fst).zip embs)

lemma scatter_length (pairs : List (Nat × List ℚ))
    (res : List (Option (List ℚ))) :
    (scatter res pairs).length = res.length := by
  induction pairs generalizing res with
  | nil => rfl
  | cons p ps ih =>
    rw [scatter, List.foldl_cons, ← scatter, ih, List.length_set]

lemma scatter_getElem_not_mem (pairs : List (Nat × List ℚ))
    (res : List (Option (List ℚ))) (i : Nat)
    (h : i ∉ pairs.map Prod.fst) :
    (scatter res pairs)[i]? = res[i]? := by
  induction pairs generalizing res with
  | nil => rfl
  | cons p ps ih =>
    simp only [List.map_cons, List.mem_cons, not_or] at h
    rw [scatter, List.foldl_cons, ← scatter, ih _ h.2,
      List.getElem?_set_ne (Ne.symm h.1)]

lemma scatter_getElem_of_mem :
    ∀ (pairs : List (Nat × List ℚ)) (res : List (Option (List ℚ)))
      (j : Nat) (e : List ℚ), (pairs.map Prod.fst).Nodup →
      (j, e) ∈ pairs → j < res.length →
      (scatter res pairs)[j]? = some (some e) := by
  intro pairs
  induction pairs with
  | nil =>
    intro res j e _ hmem _
    simp at hmem
  | cons p ps ih =>
    intro res j e hnodup hmem hj
    simp only [List.map_cons, List.nodup_cons] at hnodup
    rcases List.mem_cons.mp hmem with heq | hmem2
    · have hj1 : p.1 = j := by rw [← heq]
      have hj2 : p.2 = e := by rw [← heq]
      rw [scatter, List.foldl_cons, ← scatter,
        scatter_getElem_not_mem ps _ j (hj1 ▸ hnodup.1),
        hj1, hj2, List.getElem?_set_eq_of_lt _ hj]
    · rw [scatter, List.foldl_cons, ← scatter]
      exact ih _ j e hnodup.2 hmem2 (by rw [List.length_set]; exact hj)

lemma validTexts_fst_ge :
    ∀ (ts : List (List Char)) (k j : Nat),
      j ∈ (validTexts ts k).map Prod.fst → k ≤ j := by
  intro ts
  induction ts with
  | nil =>
    intro k j h
    simp [validTexts] at h
  | cons t ts ih =>
    intro k j h
    by_cases hv : textValid t = true
    · rw [validTexts, if_pos hv, List.map_cons] at h
      rcases List.mem_cons.mp h with rfl | h2
      · exact le_refl j
      · exact le_trans (Nat.le_succ k) (ih (k + 1) j h2)
    · rw [validTexts, if_neg hv] at h
      exact le_trans (Nat.le_succ k) (ih (k + 1) j h)

lemma validTexts_fst_lt :
    ∀ (ts : List (List Char)) (k j : Nat),
      j ∈ (validTexts ts k).map Prod.fst → j < k + ts.length := by
  intro ts
  induction ts with
  | nil =>
    intro k j h
    simp [validTexts] at h
  | cons t ts ih =>
    intro k j h
    by_cases hv : textValid t = true
    · rw [validTexts, if_pos hv, List.map_cons] at h
      rcases List.mem_cons.mp h with rfl | h2
      · simp
      · have := ih (k + 1) j h2
        simp only [List.length_cons]
        omega
    · rw [validTexts, if_neg hv] at h
      have := ih (k + 1) j h
      simp only [List.length_cons]
      omega

lemma validTexts_fst_nodup :
    ∀ (ts : List (List Char)) (k : Nat),
      ((validTexts ts k).map Prod.fst).Nodup := by
  intro ts
  induction ts with
  | nil =>
    intro k
    simp [validTexts]
  | cons t ts ih =>
    intro k
    by_cases hv : textValid t = true
    · rw [validTexts, if_pos hv, List.map_cons]
      refine List.nodup_cons.mpr ⟨?_, ih (k + 1)⟩
      intro hmem
      have := validTexts_fst_ge ts (k + 1) k hmem
      omega
    · rw [validTexts, if_neg hv]
      exact ih (k + 1)

lemma validTexts_not_mem_of_invalid :
    ∀ (ts : List (List Char)) (k i : Nat) (hi : i < ts.length),
      textValid (ts.get ⟨i, hi⟩) = false →
      (k + i) ∉ (validTexts ts k).map Prod.fst := by
  intro ts
  induction ts with
  | nil =>
    intro k i hi
    exact absurd hi (Nat.not_lt_zero i)
  | cons t ts ih =>
    intro k i hi hval
    cases i with
    | zero =>
      have hv : textValid t = false := hval
      rw [validTexts, if_neg (by rw [hv]; exact Bool.false_ne_true)]
      intro hmem
      have := validTexts_fst_ge ts (k + 1) (k + 0) hmem
      omega
    | succ j =>
      have hj : j < ts.length := Nat.lt_of_succ_lt_succ hi
      have hvalj : textValid (ts.get ⟨j, hj⟩) = false := hval
      have hrec := ih (k + 1) j hj hvalj
      by_cases hv : textValid t = true
      · rw [validTexts, if_pos hv, List.map_cons]
        intro hmem
        rcases List.mem_cons.mp hmem with heq | h2
        · omega
        · rw [show k + (j + 1) = (k + 1) + j from by omega] at h2
          exact hrec h2
      · rw [validTexts, if_neg hv]
        intro hmem
        rw [show k + (j + 1) = (k + 1) + j from by omega] at hmem
        exact hrec hmem

lemma map_fst_zip_sublist (l1 : List Nat) (l2 : List (List ℚ)) :
    List.Sublist ((l1.zip l2).map Prod.fst) l1 := by
  induction l1 generalizing l2 with
  | nil => simp
  | cons a l ih =>
    cases l2 with
    | nil => simp
    | cons b l2 => simpa using List.Sublist.cons₂ a (ih l2)

/-- C7: batch embedding returns one output slot per input in order: the
output has the length of the input; a slot whose text is blank stays
None; the embeddings returned by the single model call land at the
original positions of their texts; and a model failure yields all-None
slots of the input length rather than aborting the batch. -/
theorem C7_generate_embeddings_batch_props :
    (∀ (encode : List (List Char) → Option (List (List ℚ)))
      (texts : List (List Char)),
      (generate_embeddings_batch encode texts).length = texts.length) ∧
    (∀ (encode : List (List Char) → Option (List (List ℚ)))
      (texts : List (List Char)) (i : Nat) (hi : i < texts.length),
      textValid (texts.get ⟨i, hi⟩) = false →
      (generate_embeddings_batch encode texts)[i]? = some none) ∧
    (∀ (encode : List (List Char) → Option (List (List ℚ)))
      (texts : List (List Char)) (embs : List (List ℚ))
      (p j : Nat) (c : List Char) (e : List ℚ),
      encode ((validTexts texts 0).map Prod.snd) = some embs →
      (validTexts texts 0)[p]? = some (j, c) →
      embs[p]? = some e →
      (generate_embeddings_batch encode texts)[j]? = some (some e)) ∧
    (∀ texts : List (List Char),
      generate_embeddings_batch (fun _ => none) texts =
        List.replicate texts.length none) := by
  refine ⟨?_, ?_, ?_, ?_⟩
  · intro encode texts
    simp only [generate_embeddings_batch]
    by_cases h0 : texts = []
    · rw [if_pos h0, h0]
      rfl
    · rw [if_neg h0]
      by_cases hv : validTexts texts 0 = []
      · rw [if_pos hv, List.length_replicate]
      · rw [if_neg hv]
        cases henc : encode ((validTexts texts 0).map Prod.snd) with
        | none => rw [List.length_replicate]
        | some embs => rw [scatter_length, List.length_replicate]
  · intro encode texts i hi hval
    have hne : texts ≠ [] := by
      intro h0
      rw [h0] at hi
      exact absurd hi (by simp)
    have hnotmem : i ∉ (validTexts texts 0).map Prod.fst := by
      have := validTexts_not_mem_of_invalid texts 0 i hi hval
      simpa using this
    simp only [generate_embeddings_batch]
    rw [if_neg hne]
    by_cases hv : validTexts texts 0 = []
    · rw [if_pos hv]
      simp [List.getElem?_replicate, hi]
    · rw [if_neg hv]
      cases henc : encode ((validTexts texts 0).map Prod.snd) with
      | none => simp [List.getElem?_replicate, hi]
      | some embs =>
        rw [scatter_getElem_not_mem]
        · simp [List.getElem?_replicate, hi]
        · intro hmem
          exact hnotmem
            ((map_fst_zip_sublist _ embs).subset hmem)
  · intro encode texts embs p j c e henc hvp hep
    have hvne : validTexts texts 0 ≠ [] := by
      intro h0
      rw [h0] at hvp
      simp at hvp
    have htne : texts ≠ [] := by
      intro h0
      rw [h0] at hvp
      simp [validTexts] at hvp
    have hjget : ((validTexts texts 0).map Prod.fst)[p]? = some j := by
      rw [List.getElem?_map, hvp]
      rfl
    have hjmem : j ∈ (validTexts texts 0).map Prod.fst :=
      List.getElem?_mem hjget
    have hjlt : j < texts.length := by
      have := validTexts_fst_lt texts 0 j hjmem
      simpa using this
    have hzip : (((validTexts texts 0).map Prod.fst).zip embs)[p]? =
        some (j, e) := by
      rw [List.getElem?_zip_eq_some]
      exact ⟨hjget, hep⟩
    have hpair : (j, e) ∈ ((validTexts texts 0).map Prod.fst).zip embs :=
      List.getElem?_mem hzip
    have hnodup : ((((validTexts texts 0).map Prod.fst).zip embs).map
        Prod.fst).Nodup :=
      List.Nodup.sublist (map_fst_zip_sublist _ embs)
        (validTexts_fst_nodup texts 0)
    simp only [generate_embeddings_batch]
    rw [if_neg htne, if_neg hvne, henc]
    exact scatter_getElem_of_mem _ _ j e hnodup hpair
      (by rw [List.length_replicate]; exact hjlt)
  · intro texts
    simp only [generate_embeddings_batch]
    by_cases h0 : texts = []
    · rw [if_pos h0, h0]
      rfl
    · rw [if_neg h0]
      by_cases hv : validTexts texts 0 = []
      · rw [if_pos hv]
      · rw [if_neg hv]

/-- The four texts of the batch scenario: valid, empty, blank, valid. -/
def demoTextsC7 : List (List Char) :=
  [("a").toList, [], (" ").toList, ("b").toList]

/-- A concrete stand-in for model.encode: one embedding per text,
holding the text length. -/
def demoEncodeC7 : List (List Char) → Option (List (List ℚ)) :=
  fun ts => some (ts.map (fun t => [(t.length : ℚ)]))

/-- The embeddings demoEncodeC7 returns on the two valid texts. -/
def demoEmbsC7 : List (List ℚ) := [[1], [1]]

/-- Witness for C7 on the concrete batch. -/
theorem C7_generate_embeddings_batch_props_witness :
    (generate_embeddings_batch demoEncodeC7 demoTextsC7).length =
      demoTextsC7.length ∧
    (generate_embeddings_batch demoEncodeC7 demoTextsC7)[1]? =
      some none ∧
    (generate_embeddings_batch demoEncodeC7 demoTextsC7)[3]? =
      some (some [1]) ∧
    generate_embeddings_batch (fun _ => none) demoTextsC7 =
      List.replicate demoTextsC7.length none :=
  ⟨C7_generate_embeddings_batch_props.1 demoEncodeC7 demoTextsC7,
    C7_generate_embeddings_batch_props.2.1 demoEncodeC7 demoTextsC7 1
      (by decide) (by decide),
    C7_generate_embeddings_batch_props.2.2.1 demoEncodeC7 demoTextsC7
      demoEmbsC7 1 3 (("b").toList) [1] (by decide) (by decide)
      (by decide),
    C7_generate_embeddings_batch_props.2.2.2 demoTextsC7⟩

/- ------------------------------------------------------------------ -/
/- Answerer: LLMService.generate_response and the JSON utilities       -/
/- ------------------------------------------------------------------ -/

/-- JSON values, as produced by json.loads. -/
inductive Json where
  | null
  | bool (b : Bool)
  | num (q : ℚ)
  | str (s : String)
  | arr (xs : List Json)
  | obj (fields : List (String × Json))

/-- Dictionary lookup on a parsed JSON object. -/
def jsonGet (fields : List (String × Json)) (k : String) : Option Json :=
  (fields.find? (fun p => p.1 == k)).map Prod.snd

/-- Python dict.get with a default, on a JSON value known to be a
dictionary by the time the code calls it. -/
def jsonGetD (j : Json) (k : String) (d : Json) : Json :=
  match j with
  | .obj fields => (jsonGet fields k).getD d
  | _ => d

/-- Python truthiness of a JSON value: None, False, zero, and empty
containers are falsy. -/
def jsonTruthy : Json → Bool
  | .null => false
  | .bool b => b
  | .num q => decide (q ≠ 0)
  | .str s => !s.isEmpty
  | .arr xs => !xs.isEmpty
  | .obj fs => !fs.isEmpty

/-- utils/json_utils.validate_json_structure (lines 75-89): the value
must be a dictionary containing every required key. -/
def validate_json_structure (j : Json) (required : List String) : Bool :=
  match j with
  | .obj fields => required.all (fun k => (jsonGet fields k).isSome)
  | _ => false

/-- Python float() applied to a JSON value: numbers pass through and
booleans become 0 or 1; anything else raises (strings holding numerals
would also convert, but no claim exercises them, so they are mapped to
the raising case together with the genuinely invalid inputs). -/
def pyFloat : Json → Option ℚ
  | .num q => some q
  | .bool b => some (if b then 1 else 0)
  | _ => none

/-- The str field type of pydantic: only a JSON string passes. -/
def strOfJson : Json → Option String
  | .str s => some s
  | _ => none

/-- Helper for the sources field: every element must be a string. -/
def strListAux : List Json → Option (List String)
  | [] => some []
  | .str s :: xs => (strListAux xs).map (fun l => s :: l)
  | _ :: _ => none

/-- The sources field type of pydantic (a sequence of strings). -/
def strListOfJson : Json → Option (List String)
  | .arr xs => strListAux xs
  | _ => none

/-- models/data_models.LLMResponse (lines 46-54): the structured answer
contract, whose confiance field carries the bounds ge 0 and le 1. -/
structure LLMResponse where
  reponse : String
  confiance : ℚ
  sources : List String
deriving DecidableEq

/-- Result of processing one response body: a structured success, a
soft failure (a continue statement in the loop, no sleep), or a raised
and caught exception (the except branch, which sleeps). -/
inductive AttemptStep where
  | success (r : LLMResponse)
  | softFail
  | excFail
deriving DecidableEq

/-- Lines 148-162 of generate_response together with the pydantic
validation of LLMResponse: a missing required key is a soft failure
(continue); a float() failure on confiance raises; the pydantic bounds
ge 0 and le 1 on confiance, the str type of reponse and the sequence of
strings type of sources raise a ValidationError when violated, and the
raise is caught by the generic except branch.  No clamping happens
anywhere. -/
def buildLLMResponse (j : Json) : AttemptStep :=
  if validate_json_structure j (["reponse", "confiance"]) = false then
    .softFail
  else
    match pyFloat (jsonGetD j ("confiance") (.num 0)) with
    | none => .excFail
    | some conf =>
      match strOfJson (jsonGetD j ("reponse") (.str "")) with
      | none => .excFail
      | some rep =>
        if 0 ≤ conf ∧ conf ≤ 1 then
          match strListOfJson (jsonGetD j ("sources") (.arr [])) with
          | none => .excFail
          | some srcs => .success ⟨rep, conf, srcs⟩
        else .excFail

/-- utils/json_utils.extract_json_from_text (lines 51-73): take the
substring from the first opening brace to the last closing brace and
parse it; the parse argument abstracts json.loads, with none for a
parse error (safe_json_loads catches it). -/
def extract_json_from_text (parse : String → Option Json)
    (text : String) : Option Json :=
  let cs := text.toList
  let startIdx := pyFindChar cs '\x7b'
  let endIdx := pyRfindCharAll cs '\x7d'
  if startIdx ≠ -1 ∧ endIdx ≠ -1 ∧ endIdx > startIdx then
    parse (String.mk (pySlice cs startIdx (endIdx + 1)))
  else none

/-- One attempt body of generate_response on a 200-status response with
the given content (lines 138-162): empty content, no extractable JSON,
a falsy parse result and missing required keys are soft failures;
the rest is buildLLMResponse. -/
def attemptStep (parse : String → Option Json) (content : String) :
    AttemptStep :=
  if content = "" then .softFail
  else
    match extract_json_from_text parse content with
    | none => .softFail
    | some j =>
      if jsonTruthy j = false then .softFail
      else buildLLMResponse j

/-- Outcome of one network attempt: a timeout exception, another
request exception, a non-200 status, or a 200 response whose extracted
message content is the given string (the transport JSON around the
content is abstracted away). -/
inductive AttemptOutcome where
  | timeout
  | connError
  | badStatus (code : Int)
  | ok (content : String)

/-- The retry loop of generate_response (lines 106-177), one recursive
step per iteration of `for attempt in range(max_retries)`: remaining
counts the iterations left, attempt is the loop index, and delays
collects the sleep durations (2 to the power attempt on a timeout, 1
on another exception, both only when attempt < max_retries - 1; no
sleep on a continue).  The returned triple is the Python return value,
the number of attempts performed, and the delays. -/
def generateGo (parse : String → Option Json)
    (endpoint : Nat → AttemptOutcome) (max_retries : Nat) :
    Nat → Nat → List ℚ → Option LLMResponse × Nat × List ℚ
  | 0, attempt, delays => (none, attempt, delays)
  | remaining + 1, attempt, delays =>
    match endpoint attempt with
    | .ok content =>
      match attemptStep parse content with
      | .success r => (some r, attempt + 1, delays)
      | .softFail =>
        generateGo parse endpoint max_retries remaining (attempt + 1)
          delays
      | .excFail =>
        generateGo parse endpoint max_retries remaining (attempt + 1)
          (delays ++ if attempt < max_retries - 1 then [(1 : ℚ)] else [])
    | .badStatus _ =>
      generateGo parse endpoint max_retries remaining (attempt + 1)
        delays
    | .timeout =>
      generateGo parse endpoint max_retries remaining (attempt + 1)
        (delays ++
          if attempt < max_retries - 1 then [(2 : ℚ) ^ attempt] else [])
    | .connError =>
      generateGo parse endpoint max_retries remaining (attempt + 1)
        (delays ++ if attempt < max_retries - 1 then [(1 : ℚ)] else [])

/-- LLMService.generate_response (lines 93-177). -/
def generate_response (parse : String → Option Json)
    (endpoint : Nat → AttemptOutcome) (max_retries : Nat) :
    Option LLMResponse × Nat × List ℚ :=
  generateGo parse endpoint max_retries max_retries 0 []

/-- An attempt outcome that does not produce a structured success. -/
def outcomeFails (parse : String → Option Json) :
    AttemptOutcome → Bool
  | .ok content =>
    match attemptStep parse content with
    | .success _ => false
    | _ => true
  | _ => true

lemma generateGo_fail (parse : String → Option Json)
    (endpoint : Nat → AttemptOutcome) (max_retries : Nat) :
    ∀ (remaining attempt : Nat) (delays : List ℚ),
      (∀ i, attempt ≤ i → i < attempt + remaining →
        outcomeFails parse (endpoint i) = true) →
      (generateGo parse endpoint max_retries remaining attempt
          delays).1 = none ∧
      (generateGo parse endpoint max_retries remaining attempt
          delays).2.1 = attempt + remaining := by
  intro remaining
  induction remaining with
  | zero =>
    intro attempt delays _
    exact ⟨rfl, rfl⟩
  | succ rem ih =>
    intro attempt delays h
    have hfail : outcomeFails parse (endpoint attempt) = true :=
      h attempt (le_refl attempt) (by omega)
    have hshift : ∀ i, attempt + 1 ≤ i → i < (attempt + 1) + rem →
        outcomeFails parse (endpoint i) = true := by
      intro i h1 h2
      exact h i (by omega) (by omega)
    have harith : (attempt + 1) + rem = attempt + (rem + 1) := by omega
    cases hout : endpoint attempt with
    | ok content =>
      cases hstep : attemptStep parse content with
      | success r =>
        have hfail2 : outcomeFails parse (AttemptOutcome.ok content) =
            true := by
          rw [← hout]
          exact hfail
        simp [outcomeFails, hstep] at hfail2
      | softFail =>
        simp only [generateGo, hout, hstep]
        obtain ⟨h1, h2⟩ := ih (attempt + 1) delays hshift
        exact ⟨h1, by rw [h2, harith]⟩
      | excFail =>
        simp only [generateGo, hout, hstep]
        obtain ⟨h1, h2⟩ := ih (attempt + 1) _ hshift
        exact ⟨h1, by rw [h2, harith]⟩
    | badStatus code =>
      simp only [generateGo, hout]
      obtain ⟨h1, h2⟩ := ih (attempt + 1) delays hshift
      exact ⟨h1, by rw [h2, harith]⟩
    | timeout =>
      simp only [generateGo, hout]
      obtain ⟨h1, h2⟩ := ih (attempt + 1) _ hshift
      exact ⟨h1, by rw [h2, harith]⟩
    | connError =>
      simp only [generateGo, hout]
      obtain ⟨h1, h2⟩ := ih (attempt + 1) _ hshift
      exact ⟨h1, by rw [h2, harith]⟩

lemma generateGo_attempts_le (parse : String → Option Json)
    (endpoint : Nat → AttemptOutcome) (max_retries : Nat) :
    ∀ (remaining attempt : Nat) (delays : List ℚ),
      (generateGo parse endpoint max_retries remaining attempt
          delays).2.1 ≤ attempt + remaining := by
  intro remaining
  induction remaining with
  | zero =>
    intro attempt delays
    exact Nat.le_refl attempt
  | succ rem ih =>
    intro attempt delays
    cases hout : endpoint attempt with
    | ok content =>
      cases hstep : attemptStep parse content with
      | success r =>
        simp only [generateGo, hout, hstep]
        omega
      | softFail =>
        simp only [generateGo, hout, hstep]
        have := ih (attempt + 1) delays
        omega
      | excFail =>
        simp only [generateGo, hout, hstep]
        have := ih (attempt + 1)
          (delays ++ if attempt < max_retries - 1 then [(1 : ℚ)] else [])
        omega
    | badStatus code =>
      simp only [generateGo, hout]
      have := ih (attempt + 1) delays
      omega
    | timeout =>
      simp only [generateGo, hout]
      have := ih (attempt + 1)
        (delays ++
          if attempt < max_retries - 1 then [(2 : ℚ) ^ attempt] else [])
      omega
    | connError =>
      simp only [generateGo, hout]
      have := ih (attempt + 1)
        (delays ++ if attempt < max_retries - 1 then [(1 : ℚ)] else [])
      omega

lemma generateGo_timeout_delays (parse : String → Option Json)
    (endpoint : Nat → AttemptOutcome) (max_retries : Nat)
    (hend : ∀ i, i < max_retries → endpoint i = .timeout) :
    ∀ (remaining attempt : Nat) (delays : List ℚ),
      attempt + remaining = max_retries →
      generateGo parse endpoint max_retries remaining attempt delays =
        (none, max_retries,
          delays ++ (List.range' attempt (remaining - 1)).map
            (fun i => (2 : ℚ) ^ i)) := by
  intro remaining
  induction remaining with
  | zero =>
    intro attempt delays hsum
    have hat : attempt = max_retries := by omega
    subst hat
    simp [generateGo, List.range']
  | succ rem ih =>
    intro attempt delays hsum
    have hlt : attempt < max_retries := by omega
    simp only [generateGo, hend attempt hlt]
    by_cases hc : attempt < max_retries - 1
    · rw [if_pos hc, ih (attempt + 1) _ (by omega)]
      obtain ⟨rem2, rfl⟩ : ∃ m, rem = m + 1 := ⟨rem - 1, by omega⟩
      rw [Nat.add_sub_cancel, Nat.add_sub_cancel]
      simp only [List.range', List.map_cons, List.append_assoc,
        List.singleton_append]
    · rw [if_neg hc]
      have hrem : rem = 0 := by omega
      subst hrem
      have hat : attempt + 1 = max_retries := by omega
      simp [generateGo, hat, List.range']

lemma generateGo_connError_delays (parse : String → Option Json)
    (endpoint : Nat → AttemptOutcome) (max_retries : Nat)
    (hend : ∀ i, i < max_retries → endpoint i = .connError) :
    ∀ (remaining attempt : Nat) (delays : List ℚ),
      attempt + remaining = max_retries →
      generateGo parse endpoint max_retries remaining attempt delays =
        (none, max_retries,
          delays ++ List.replicate (remaining - 1) (1 : ℚ)) := by
  intro remaining
  induction remaining with
  | zero =>
    intro attempt delays hsum
    have hat : attempt = max_retries := by omega
    subst hat
    simp [generateGo]
  | succ rem ih =>
    intro attempt delays hsum
    have hlt : attempt < max_retries := by omega
    simp only [generateGo, hend attempt hlt]
    by_cases hc : attempt < max_retries - 1
    · rw [if_pos hc, ih (attempt + 1) _ (by omega)]
      obtain ⟨rem2, rfl⟩ : ∃ m, rem = m + 1 := ⟨rem - 1, by omega⟩
      rw [Nat.add_sub_cancel, Nat.add_sub_cancel]
      simp only [List.replicate_succ, List.append_assoc,
        List.singleton_append]
    · rw [if_neg hc]
      have hrem : rem = 0 := by omega
      subst hrem
      have hat : attempt + 1 = max_retries := by omega
      simp [generateGo, hat]

/-- C6: the retry loop performs at most max_retries attempts; when no
attempt succeeds it returns None after exactly max_retries attempts,
without raising; an endpoint that always times out sleeps 2 to the
power attempt before each next attempt; an endpoint that always raises
another exception sleeps the fixed delay 1 before each next attempt. -/
theorem C6_generate_response_retry_props :
    (∀ (parse : String → Option Json)
      (endpoint : Nat → AttemptOutcome) (max_retries : Nat),
      (generate_response parse endpoint max_retries).2.1 ≤
        max_retries) ∧
    (∀ (parse : String → Option Json)
      (endpoint : Nat → AttemptOutcome) (max_retries : Nat),
      (∀ i, i < max_retries → outcomeFails parse (endpoint i) = true) →
      (generate_response parse endpoint max_retries).1 = none ∧
      (generate_response parse endpoint max_retries).2.1 =
        max_retries) ∧
    (∀ (parse : String → Option Json)
      (endpoint : Nat → AttemptOutcome) (max_retries : Nat),
      (∀ i, i < max_retries → endpoint i = .timeout) →
      generate_response parse endpoint max_retries =
        (none, max_retries,
          (List.range (max_retries - 1)).map (fun i => (2 : ℚ) ^ i))) ∧
    (∀ (parse : String → Option Json)
      (endpoint : Nat → AttemptOutcome) (max_retries : Nat),
      (∀ i, i < max_retries → endpoint i = .connError) →
      generate_response parse endpoint max_retries =
        (none, max_retries,
          List.replicate (max_retries - 1) (1 : ℚ))) := by
  refine ⟨?_, ?_, ?_, ?_⟩
  · intro parse endpoint max_retries
    have := generateGo_attempts_le parse endpoint max_retries
      max_retries 0 []
    simpa [generate_response] using this
  · intro parse endpoint max_retries h
    have := generateGo_fail parse endpoint max_retries max_retries 0 []
      (fun i _ h2 => h i (by omega))
    simpa [generate_response] using this
  · intro parse endpoint max_retries h
    have := generateGo_timeout_delays parse endpoint max_retries h
      max_retries 0 [] (by omega)
    rw [generate_response, this, List.nil_append, List.range_eq_range']
  · intro parse endpoint max_retries h
    have := generateGo_connError_delays parse endpoint max_retries h
      max_retries 0 [] (by omega)
    rw [generate_response, this, List.nil_append]

/-- Witness for C6: with 2 attempts against endpoints that always fail,
the loop returns no result after exactly 2 attempts; the timeout
endpoint sleeps 2 to the power 0 = 1 second once (no sleep after the
final attempt), the generic-error endpoint sleeps the fixed 1 second
once. -/
theorem C6_generate_response_retry_props_witness :
    generate_response (fun _ => none)
      (fun _ => AttemptOutcome.timeout) 2 = (none, 2, [(1 : ℚ)]) ∧
    generate_response (fun _ => none)
      (fun _ => AttemptOutcome.connError) 2 = (none, 2, [(1 : ℚ)]) := by
  constructor
  · have h := C6_generate_response_retry_props.2.2.1 (fun _ => none)
      (fun _ => AttemptOutcome.timeout) 2 (fun _ _ => rfl)
    simpa using h
  · have h := C6_generate_response_retry_props.2.2.2 (fun _ => none)
      (fun _ => AttemptOutcome.connError) 2 (fun _ _ => rfl)
    simpa using h

/-- A parsed model answer whose confidence 2 lies outside the unit
interval, with both required keys present. -/
def demoBadJsonC3 : Json :=
  .obj [("reponse", .str "ok"), ("confiance", .num 2)]

/-- A parsed model answer with confidence 1 and no sources key. -/
def demoGoodJsonC3 : Json :=
  .obj [("reponse", .str "ok"), ("confiance", .num 1)]

/-- The raw body holding demoBadJsonC3. -/
def demoBadContentC3 : String :=
  "\x7b\"reponse\": \"ok\", \"confiance\": 2\x7d"

/-- The raw body holding demoGoodJsonC3 surrounded by prose. -/
def demoGoodContentC3 : String :=
  "Result: \x7b\"reponse\": \"ok\", \"confiance\": 1\x7d done"

/-- A stand-in for json.loads covering the two demo bodies. -/
def demoParseC3 : String → Option Json := fun s =>
  if s = "\x7b\"reponse\": \"ok\", \"confiance\": 2\x7d" then
    some demoBadJsonC3
  else if s = "\x7b\"reponse\": \"ok\", \"confiance\": 1\x7d" then
    some demoGoodJsonC3
  else none

/-- C3 counterexample: the claim says an out-of-range numeric
confidence is clamped to the nearest bound rather than failing the
attempt.  On the code, confidence 2 with both required keys present
makes the pydantic validation raise: the attempt fails (and with one
attempt available the loop then returns None), instead of succeeding
with confidence clamped to 1. -/
theorem C3_confidence_not_clamped_counterexample :
    buildLLMResponse demoBadJsonC3 = AttemptStep.excFail ∧
    attemptStep demoParseC3 demoBadContentC3 = AttemptStep.excFail ∧
    generate_response demoParseC3 (fun _ => .ok demoBadContentC3) 1 =
      (none, 1, []) := by
  refine ⟨by decide, by decide, ?_⟩
  decide

/-- C3 amended: when an attempt succeeds, the confidence lies in the
unit interval because any out-of-range value makes the attempt fail
and be retried (no clamping); sources defaults to the empty sequence
when absent; and on a successful first attempt the structured result
is returned immediately, with exactly one attempt performed and no
further retries. -/
theorem C3_success_props :
    (∀ (j : Json) (r : LLMResponse),
      buildLLMResponse j = AttemptStep.success r →
      0 ≤ r.confiance ∧ r.confiance ≤ 1) ∧
    (∀ (fields : List (String × Json)) (r : LLMResponse),
      jsonGet fields ("sources") = none →
      buildLLMResponse (.obj fields) = AttemptStep.success r →
      r.sources = []) ∧
    (∀ (parse : String → Option Json)
      (endpoint : Nat → AttemptOutcome) (max_retries : Nat)
      (content : String) (r : LLMResponse),
      0 < max_retries → endpoint 0 = .ok content →
      attemptStep parse content = AttemptStep.success r →
      generate_response parse endpoint max_retries =
        (some r, 1, [])) := by
  have hbuild : ∀ (j : Json) (r : LLMResponse),
      buildLLMResponse j = AttemptStep.success r →
      (0 ≤ r.confiance ∧ r.confiance ≤ 1) ∧
      (∀ srcs, strListOfJson (jsonGetD j ("sources") (.arr [])) =
        some srcs → r.sources = srcs) := by
    intro j r h
    rw [buildLLMResponse] at h
    by_cases hv : validate_json_structure j (["reponse", "confiance"]) =
        false
    · rw [if_pos hv] at h
      exact absurd h (by simp)
    · rw [if_neg hv] at h
      cases hf : pyFloat (jsonGetD j ("confiance") (.num 0)) with
      | none =>
        simp only [hf] at h
        exact absurd h (by simp)
      | some conf =>
        simp only [hf] at h
        cases hr : strOfJson (jsonGetD j ("reponse") (.str "")) with
        | none =>
          simp only [hr] at h
          exact absurd h (by simp)
        | some rep =>
          simp only [hr] at h
          by_cases hb : 0 ≤ conf ∧ conf ≤ 1
          · rw [if_pos hb] at h
            cases hs : strListOfJson (jsonGetD j ("sources")
                (.arr [])) with
            | none =>
              simp only [hs] at h
              exact absurd h (by simp)
            | some srcs =>
              simp only [hs] at h
              have hinj : LLMResponse.mk rep conf srcs = r := by
                injection h
              constructor
              · rw [← hinj]
                exact hb
              · intro srcs2 hs2
                injection hs2 with hs3
                rw [← hinj, hs3]
          · rw [if_neg hb] at h
            exact absurd h (by simp)
  refine ⟨?_, ?_, ?_⟩
  · intro j r h
    exact (hbuild j r h).1
  · intro fields r hget h
    refine (hbuild _ r h).2 [] ?_
    rw [jsonGetD, hget]
    rfl
  · intro parse endpoint max_retries content r hmr h0 hstep
    obtain ⟨m, rfl⟩ : ∃ m, max_retries = m + 1 :=
      ⟨max_retries - 1, by omega⟩
    simp only [generate_response, generateGo, h0, hstep]

/-- A successful structured response with confidence 1 and defaulted
sources. -/
def demoGoodRespC3 : LLMResponse := ⟨"ok", 1, []⟩

/-- Witness for the amended C3 on the concrete good body: confidence
within bounds, sources defaulted to empty, immediate return after one
attempt. -/
theorem C3_success_props_witness :
    (0 ≤ demoGoodRespC3.confiance ∧ demoGoodRespC3.confiance ≤ 1) ∧
    demoGoodRespC3.sources = [] ∧
    generate_response demoParseC3 (fun _ => .ok demoGoodContentC3) 3 =
      (some demoGoodRespC3, 1, []) :=
  ⟨C3_success_props.1 demoGoodJsonC3 demoGoodRespC3 (by decide),
    C3_success_props.2.1
      [("reponse", Json.str "ok"), ("confiance", Json.num 1)]
      demoGoodRespC3 rfl (by decide),
    C3_success_props.2.2 demoParseC3
      (fun _ => .ok demoGoodContentC3) 3 demoGoodContentC3
      demoGoodRespC3 (by norm_num) rfl (by decide)⟩

end AOR
